import Mathlib

/-!
Shallow embedding of `src/Native/Unix/System.Security.Cryptography.Native.Apple/pal_trust.cpp`
(macOS trust-settings matching and domain enumeration), together with theorems
checking the specification's claims against it.

Modelling conventions:
* `OSStatus` is `Int`; `noErr = 0`, with the two named error constants the code uses.
* A `SecCertificateRef` is an opaque identity, modelled as `Nat`.
* The CoreFoundation objects inside a trust-settings array are modelled by
  `CFSettingsObj`: either a dictionary (a list of key/value pairs, whose count is
  the list length) or some non-dictionary object.  The reserved key
  `kSecTrustSettingsResult` is one constructor of `CFKey`.  A dictionary value is
  either a `CFNumber` (with a flag saying whether `CFNumberGetValue` at
  `kCFNumberSInt32Type` succeeds, and the `Int` it yields) or a non-number object.
* The trust-settings store (`SecTrustSettingsCopyTrustSettings` /
  `SecTrustSettingsCopyCertificates`) is an injected collaborator `TrustStore`:
  each call returns an `OSStatus` together with the data the real API would place
  behind the out-pointer (`none` models a null `CFArrayRef`).
* C out-pointers are modelled with `Option`: a parameter `Option (Option α)` is a
  possibly-null pointer to a possibly-null reference; functions return the final
  pointed-to values alongside the `int32_t` return code.
* `CFArrayCreateMutable` may fail; the flag `allocOk` says whether allocation
  succeeds during the call.
-/

abbrev OSStatus := Int

def noErr : OSStatus := 0

def errSecAllocate : OSStatus := -108

def errSecNoTrustSettings : OSStatus := -25263

abbrev SecCertificateRef := Nat

inductive SecTrustSettingsDomain
| user
| admin
| system
deriving DecidableEq

def kSecTrustSettingsResultInvalid : Int := 0

def kSecTrustSettingsResultTrustRoot : Int := 1

def kSecTrustSettingsResultTrustAsRoot : Int := 2

def kSecTrustSettingsResultDeny : Int := 3

def kSecTrustSettingsResultUnspecified : Int := 4

inductive CFKey
| trustSettingsResult
| otherKey (n : Nat)
deriving DecidableEq

inductive CFValue
| number (convertible : Bool) (v : Int)
| nonNumber
deriving DecidableEq

inductive CFSettingsObj
| dict (entries : List (CFKey × CFValue))
| nonDict
deriving DecidableEq

/-- `CFDictionaryGetValue dict kSecTrustSettingsResult`: first value stored under
the reserved result key, `none` when the key is absent (null `CFTypeRef`). -/
def lookupResultKey : List (CFKey × CFValue) → Option CFValue
| [] => none
| (k, v) :: rest =>
    if k = CFKey.trustSettingsResult then some v else lookupResultKey rest

/-- The record-scanning loop of `CheckTrustMatch` (pal_trust.cpp lines 32-68):
skip non-dictionaries, skip dictionaries with more than one key, read the
reserved result key; when it holds a number convertible to `SInt32`, decide
`trustValue == result` and stop.  Returns the final `isMatch`. -/
def scanTrustSettings (result : Int) : List CFSettingsObj → Bool
| [] => false
| CFSettingsObj.nonDict :: rest => scanTrustSettings result rest
| CFSettingsObj.dict entries :: rest =>
    if entries.length > 1 then scanTrustSettings result rest
    else
      match lookupResultKey entries with
      | some (CFValue.number true v) => decide (v = result)
      | _ => scanTrustSettings result rest

/-- `CheckTrustMatch` after the `SecTrustSettingsCopyTrustSettings` call:
given the status it returned and the (possibly null) settings array, compute
`(isMatch, *pOSStatus)` exactly as pal_trust.cpp lines 14-75 do. -/
def checkTrustMatchOn (copied : OSStatus × Option (List CFSettingsObj)) (result : Int) :
    Bool × OSStatus :=
  match copied.2 with
  | none => (false, copied.1)
  | some settings =>
      if copied.1 = noErr then
        if settings.length = 0 then
          (decide (result = kSecTrustSettingsResultTrustRoot), noErr)
        else
          (scanTrustSettings result settings, copied.1)
      else (false, copied.1)

/-- An element of the array returned by `SecTrustSettingsCopyCertificates`:
either a certificate or an object of some other type id. -/
inductive StoreItem
| certItem (c : SecCertificateRef)
| nonCertItem
deriving DecidableEq

/-- The injected trust-settings store collaborator.  Each field returns the
`OSStatus` of the call together with the data it would place behind its
out-pointer (only read by the code when the status warrants it). -/
structure TrustStore where
  copyTrustSettings : SecCertificateRef → SecTrustSettingsDomain →
    OSStatus × Option (List CFSettingsObj)
  copyCertificates : SecTrustSettingsDomain → OSStatus × List StoreItem

/-- `CheckTrustMatch` (pal_trust.cpp lines 7-76): evaluate one certificate in
one domain against a desired `SecTrustSettingsResult`; returns
`(isMatch, *pOSStatus)`. -/
def CheckTrustMatch (store : TrustStore) (cert : SecCertificateRef)
    (domain : SecTrustSettingsDomain) (result : Int) : Bool × OSStatus :=
  checkTrustMatchOn (store.copyTrustSettings cert domain) result

/-- The per-certificate loop of `EnumerateTrust` (pal_trust.cpp lines 115-136):
walk the items, skip non-certificates, run `CheckTrustMatch` on each
certificate; a non-`noErr` status breaks out, a match is appended.  Returns the
final accumulator and the final `*pOSStatus`. -/
def enumTrustLoop (store : TrustStore) (domain : SecTrustSettingsDomain) (result : Int) :
    List StoreItem → List SecCertificateRef → List SecCertificateRef × OSStatus
| [], acc => (acc, noErr)
| StoreItem.nonCertItem :: rest, acc => enumTrustLoop store domain result rest acc
| StoreItem.certItem c :: rest, acc =>
    let r := CheckTrustMatch store c domain result
    if r.2 ≠ noErr then (acc, r.2)
    else if r.1 then enumTrustLoop store domain result rest (acc ++ [c])
    else enumTrustLoop store domain result rest acc

/-- The final normalization of `EnumerateTrust` (pal_trust.cpp lines 150-160):
compute `ret = (*pOSStatus == noErr)` and release the array — leaving a null
`*pCertsRef` — when the call failed or the array is empty. -/
def finalizeEnum (step : List SecCertificateRef × OSStatus) :
    Int × Option (List SecCertificateRef) × OSStatus :=
  let ret : Int := if step.2 = noErr then 1 else 0
  if ret = 0 ∨ step.1.length = 0 then (ret, none, step.2)
  else (ret, some step.1, step.2)

/-- `EnumerateTrust` from the `SecTrustSettingsCopyCertificates` call onward
(pal_trust.cpp lines 107-160), with `outArray` the accumulator in hand:
returns `(ret, *pCertsRef, *pOSStatus)` after the final normalization that
releases an unused or empty array. -/
def enumerateTrustBody (store : TrustStore) (domain : SecTrustSettingsDomain)
    (result : Int) (outArray : List SecCertificateRef) :
    Int × Option (List SecCertificateRef) × OSStatus :=
  let copied := store.copyCertificates domain
  finalizeEnum
    (if copied.1 = noErr then enumTrustLoop store domain result copied.2 outArray
     else if copied.1 = errSecNoTrustSettings then (outArray, noErr)
     else (outArray, copied.1))

/-- `EnumerateTrust` with both pointers present (pal_trust.cpp lines 89-160):
pick up a caller-supplied accumulator or allocate a fresh one (which may fail),
then run the body.  Returns `(ret, *pCertsRef, *pOSStatus)`. -/
def enumerateTrustCore (store : TrustStore) (allocOk : Bool)
    (domain : SecTrustSettingsDomain) (result : Int)
    (certsIn : Option (List SecCertificateRef)) :
    Int × Option (List SecCertificateRef) × OSStatus :=
  match certsIn with
  | some arr => enumerateTrustBody store domain result arr
  | none =>
      if allocOk then enumerateTrustBody store domain result []
      else (0, none, errSecAllocate)

/-- `EnumerateTrust` (pal_trust.cpp lines 78-161).  `pCertsRef` is the
possibly-null pointer to the possibly-null array; `pOSStatusPresent` says
whether the status out-pointer is non-null.  Returns the `int32_t` result, the
final `*pCertsRef` (when that pointer exists) and the final `*pOSStatus` (when
that pointer exists). -/
def EnumerateTrust (store : TrustStore) (allocOk : Bool)
    (domain : SecTrustSettingsDomain) (result : Int)
    (pCertsRef : Option (Option (List SecCertificateRef))) (pOSStatusPresent : Bool) :
    Int × Option (Option (List SecCertificateRef)) × Option OSStatus :=
  match pCertsRef, pOSStatusPresent with
  | some certsIn, true =>
      let r := enumerateTrustCore store allocOk domain result certsIn
      (r.1, some r.2.1, some r.2.2)
  | none, true => (-1, none, some noErr)
  | pc, false => (-1, pc, none)

/-- `AppleCryptoNative_StoreEnumerateUserRoot` (pal_trust.cpp lines 163-172). -/
def AppleCryptoNative_StoreEnumerateUserRoot (store : TrustStore) (allocOk : Bool)
    (pCertsOut : Option (Option (List SecCertificateRef))) (pOSStatusPresent : Bool) :
    Int × Option (Option (List SecCertificateRef)) × Option OSStatus :=
  let pc := pCertsOut.map (fun _ => (none : Option (List SecCertificateRef)))
  EnumerateTrust store allocOk SecTrustSettingsDomain.user
    kSecTrustSettingsResultTrustRoot pc pOSStatusPresent

/-- `AppleCryptoNative_StoreEnumerateMachineRoot` (pal_trust.cpp lines 174-190):
Admin first, then — only when the first call returned 1 — System, through the
same pointers. -/
def AppleCryptoNative_StoreEnumerateMachineRoot (store : TrustStore) (allocOk : Bool)
    (pCertsOut : Option (Option (List SecCertificateRef))) (pOSStatusPresent : Bool) :
    Int × Option (Option (List SecCertificateRef)) × Option OSStatus :=
  let pc := pCertsOut.map (fun _ => (none : Option (List SecCertificateRef)))
  let r1 := EnumerateTrust store allocOk SecTrustSettingsDomain.admin
    kSecTrustSettingsResultTrustRoot pc pOSStatusPresent
  if r1.1 = 1 then
    EnumerateTrust store allocOk SecTrustSettingsDomain.system
      kSecTrustSettingsResultTrustRoot r1.2.1 pOSStatusPresent
  else r1

/-- `AppleCryptoNative_StoreEnumerateUserDisallowed` (pal_trust.cpp lines 192-201). -/
def AppleCryptoNative_StoreEnumerateUserDisallowed (store : TrustStore) (allocOk : Bool)
    (pCertsOut : Option (Option (List SecCertificateRef))) (pOSStatusPresent : Bool) :
    Int × Option (Option (List SecCertificateRef)) × Option OSStatus :=
  let pc := pCertsOut.map (fun _ => (none : Option (List SecCertificateRef)))
  EnumerateTrust store allocOk SecTrustSettingsDomain.user
    kSecTrustSettingsResultDeny pc pOSStatusPresent

/-- `AppleCryptoNative_StoreEnumerateMachineDisallowed` (pal_trust.cpp lines 203-218). -/
def AppleCryptoNative_StoreEnumerateMachineDisallowed (store : TrustStore) (allocOk : Bool)
    (pCertsOut : Option (Option (List SecCertificateRef))) (pOSStatusPresent : Bool) :
    Int × Option (Option (List SecCertificateRef)) × Option OSStatus :=
  let pc := pCertsOut.map (fun _ => (none : Option (List SecCertificateRef)))
  let r1 := EnumerateTrust store allocOk SecTrustSettingsDomain.admin
    kSecTrustSettingsResultDeny pc pOSStatusPresent
  if r1.1 = 1 then
    EnumerateTrust store allocOk SecTrustSettingsDomain.system
      kSecTrustSettingsResultDeny r1.2.1 pOSStatusPresent
  else r1

/-! ## Helper lemmas and concrete stores -/

/-- The decision a single record yields during the scan: the asserted outcome
value when the record is a well-formed single-key dictionary whose reserved key
holds an `SInt32`-convertible number, `none` when the scan skips it. -/
def recordDecision : CFSettingsObj → Option Int
| CFSettingsObj.dict entries =>
    if entries.length > 1 then none
    else
      match lookupResultKey entries with
      | some (CFValue.number true v) => some v
      | _ => none
| CFSettingsObj.nonDict => none

/-- A store on which every settings copy succeeds with a present-but-empty array. -/
def emptySettingsStore : TrustStore :=
{ copyTrustSettings := fun _ _ => (noErr, some [])
  copyCertificates := fun _ => (noErr, []) }

/-- A store on which every settings copy succeeds but hands back a null array. -/
def nullSettingsStore : TrustStore :=
{ copyTrustSettings := fun _ _ => (noErr, none)
  copyCertificates := fun _ => (noErr, []) }

/-- A single-key record asserting `Deny`. -/
def denyRecord : CFSettingsObj :=
  CFSettingsObj.dict [(CFKey.trustSettingsResult, CFValue.number true kSecTrustSettingsResultDeny)]

/-- A single-key record asserting `TrustRoot`. -/
def trustRootRecord : CFSettingsObj :=
  CFSettingsObj.dict
    [(CFKey.trustSettingsResult, CFValue.number true kSecTrustSettingsResultTrustRoot)]

/-- A store on which every certificate's settings sequence is
`[denyRecord, trustRootRecord]`. -/
def denyThenTrustStore : TrustStore :=
{ copyTrustSettings := fun _ _ => (noErr, some [denyRecord, trustRootRecord])
  copyCertificates := fun _ => (noErr, []) }

/-- The empty-array release of the final normalization, in isolation: a list
becomes a null array reference when empty. -/
def optOfList (l : List SecCertificateRef) : Option (List SecCertificateRef) :=
  if l.length = 0 then none else some l

/-- The matches a fully successful pass of the per-certificate loop appends, in
store enumeration order: certificates among the items whose `CheckTrustMatch`
is a match. -/
def collectMatches (store : TrustStore) (domain : SecTrustSettingsDomain) (result : Int) :
    List StoreItem → List SecCertificateRef
| [] => []
| StoreItem.nonCertItem :: rest => collectMatches store domain result rest
| StoreItem.certItem c :: rest =>
    if (CheckTrustMatch store c domain result).1 then
      c :: collectMatches store domain result rest
    else collectMatches store domain result rest

/-- Every certificate among the items evaluates with a `noErr` status. -/
def itemsAllOk (store : TrustStore) (domain : SecTrustSettingsDomain) (result : Int) :
    List StoreItem → Bool
| [] => true
| StoreItem.nonCertItem :: rest => itemsAllOk store domain result rest
| StoreItem.certItem c :: rest =>
    decide ((CheckTrustMatch store c domain result).2 = noErr) &&
      itemsAllOk store domain result rest

/-- A whole domain enumerates without any store error: the certificate-list
copy succeeds and every certificate's settings copy succeeds. -/
def domainOk (store : TrustStore) (domain : SecTrustSettingsDomain) (result : Int) : Bool :=
  decide ((store.copyCertificates domain).1 = noErr) &&
    itemsAllOk store domain result (store.copyCertificates domain).2

/-- All the matches a domain contributes when it enumerates without error. -/
def domainMatches (store : TrustStore) (domain : SecTrustSettingsDomain) (result : Int) :
    List SecCertificateRef :=
  collectMatches store domain result (store.copyCertificates domain).2

/-- The observable output of a public operation is normalized: whenever the
certificate out-pointer holds a present collection, the call returned 1 and the
collection is non-empty — so a failed call, or an empty accumulator, never
surfaces a present collection. -/
def outputNormalized :
    Int × Option (Option (List SecCertificateRef)) × Option OSStatus → Bool
| (ret, some (some l), _) => ret == 1 && decide (l.length ≠ 0)
| (_, _, _) => true

/-- A store whose every domain reports `errSecNoTrustSettings`. -/
def noTrustSettingsStore : TrustStore :=
{ copyTrustSettings := fun _ _ => (noErr, some [])
  copyCertificates := fun _ => (errSecNoTrustSettings, []) }

/-- A store where the Admin domain enumerates one trust-root match
(certificate 1) and one deny match (certificate 2) and the System domain then
fails with a store error. -/
def failFastStore : TrustStore :=
{ copyTrustSettings := fun c _ =>
    if c = 2 then (noErr, some [denyRecord]) else (noErr, some [])
  copyCertificates := fun d =>
    match d with
    | SecTrustSettingsDomain.admin => (noErr, [StoreItem.certItem 1, StoreItem.certItem 2])
    | SecTrustSettingsDomain.system => (-25293, [])
    | SecTrustSettingsDomain.user => (noErr, []) }

/-- A store where Admin yields matching certificates 1 and 2 and System yields
matching certificate 3, all without error. -/
def orderedChainStore : TrustStore :=
{ copyTrustSettings := fun _ _ => (noErr, some [])
  copyCertificates := fun d =>
    match d with
    | SecTrustSettingsDomain.admin => (noErr, [StoreItem.certItem 1, StoreItem.certItem 2])
    | SecTrustSettingsDomain.system => (noErr, [StoreItem.certItem 3])
    | SecTrustSettingsDomain.user => (noErr, []) }

/-- A store where certificate 1 evaluates cleanly, certificate 2's settings
copy fails with a store error, and certificate 3 comes after it in the
enumeration. -/
def perCertErrorStore : TrustStore :=
{ copyTrustSettings := fun c _ =>
    if c = 2 then (-25300, none) else (noErr, some [])
  copyCertificates := fun _ =>
    (noErr, [StoreItem.certItem 1, StoreItem.certItem 2, StoreItem.certItem 3]) }

/-! ## Claim theorems -/

theorem scanTrustSettings_cons (result : Int) (o : CFSettingsObj)
    (rest : List CFSettingsObj) :
    scanTrustSettings result (o :: rest) =
      match recordDecision o with
      | some v => decide (v = result)
      | none => scanTrustSettings result rest := by
  cases o with
  | nonDict => simp [scanTrustSettings, recordDecision]
  | dict entries =>
      by_cases h : entries.length > 1
      · simp [scanTrustSettings, recordDecision, h]
      · cases hl : lookupResultKey entries with
        | none => simp [scanTrustSettings, recordDecision, h, hl]
        | some v =>
            cases v with
            | nonNumber => simp [scanTrustSettings, recordDecision, h, hl]
            | number conv x =>
                cases conv <;> simp [scanTrustSettings, recordDecision, h, hl]

theorem finalizeEnum_ok (l : List SecCertificateRef) :
    finalizeEnum (l, noErr) = (1, optOfList l, noErr) := by
  by_cases h : l.length = 0 <;> simp [finalizeEnum, optOfList, h]

theorem finalizeEnum_err (l : List SecCertificateRef) (e : OSStatus) (h : e ≠ noErr) :
    finalizeEnum (l, e) = (0, none, e) := by
  simp [finalizeEnum, h]

theorem optOfList_nil : optOfList [] = none := rfl

theorem enumTrustLoop_allOk (store : TrustStore) (domain : SecTrustSettingsDomain)
    (result : Int) (items : List StoreItem) (acc : List SecCertificateRef)
    (h : itemsAllOk store domain result items = true) :
    enumTrustLoop store domain result items acc =
      (acc ++ collectMatches store domain result items, noErr) := by
  induction items generalizing acc with
  | nil => simp [enumTrustLoop, collectMatches]
  | cons item rest ih =>
      cases item with
      | nonCertItem =>
          simp only [itemsAllOk] at h
          simp [enumTrustLoop, collectMatches, ih _ h]
      | certItem c =>
          simp only [itemsAllOk, Bool.and_eq_true, decide_eq_true_eq] at h
          by_cases hm : (CheckTrustMatch store c domain result).1
          all_goals simp [enumTrustLoop, collectMatches, h.1, hm, ih _ h.2]

/-- C1: for every certificate whose settings sequence in a domain is present
but empty (the settings copy succeeds with a non-null zero-length array), the
evaluator returns a match with success status if and only if the desired
outcome is TrustRoot: `Evaluate(C, D, TrustRoot) = (true, noErr)` and
`Evaluate(C, D, Deny) = (false, noErr)`. -/
theorem evaluate_empty_settings_iff_trustRoot (store : TrustStore)
    (c : SecCertificateRef) (d : SecTrustSettingsDomain)
    (h : store.copyTrustSettings c d = (noErr, some [])) :
    CheckTrustMatch store c d kSecTrustSettingsResultTrustRoot = (true, noErr) ∧
    CheckTrustMatch store c d kSecTrustSettingsResultDeny = (false, noErr) := by
  constructor <;>
    simp [CheckTrustMatch, checkTrustMatchOn, h, kSecTrustSettingsResultTrustRoot,
      kSecTrustSettingsResultDeny]

theorem evaluate_empty_settings_iff_trustRoot_witness :
    CheckTrustMatch emptySettingsStore 0 SecTrustSettingsDomain.user
      kSecTrustSettingsResultTrustRoot = (true, noErr) ∧
    CheckTrustMatch emptySettingsStore 0 SecTrustSettingsDomain.user
      kSecTrustSettingsResultDeny = (false, noErr) :=
  evaluate_empty_settings_iff_trustRoot emptySettingsStore 0 SecTrustSettingsDomain.user rfl

/-- C2: a constraint-record with more than one key never causes a match:
inserting such a record anywhere in the scanned sequence leaves the scan's
outcome unchanged, for every desired outcome and whatever outcome the record
asserts. -/
theorem multi_key_record_never_matches (result : Int) (entries : List (CFKey × CFValue))
    (h : 1 < entries.length) (pre post : List CFSettingsObj) :
    scanTrustSettings result (pre ++ CFSettingsObj.dict entries :: post) =
      scanTrustSettings result (pre ++ post) := by
  induction pre with
  | nil =>
      have hd : recordDecision (CFSettingsObj.dict entries) = none := by
        simp [recordDecision, h]
      simp [scanTrustSettings_cons, hd]
  | cons o pre ih =>
      rw [List.cons_append, List.cons_append, scanTrustSettings_cons, scanTrustSettings_cons]
      cases recordDecision o <;> simp [ih]

theorem multi_key_record_never_matches_witness :
    1 < ([(CFKey.trustSettingsResult, CFValue.number true kSecTrustSettingsResultTrustRoot),
          (CFKey.otherKey 0, CFValue.nonNumber)] : List (CFKey × CFValue)).length ∧
    scanTrustSettings kSecTrustSettingsResultTrustRoot
      [CFSettingsObj.dict
        [(CFKey.trustSettingsResult, CFValue.number true kSecTrustSettingsResultTrustRoot),
         (CFKey.otherKey 0, CFValue.nonNumber)]] =
      scanTrustSettings kSecTrustSettingsResultTrustRoot [] :=
  ⟨by decide,
   multi_key_record_never_matches kSecTrustSettingsResultTrustRoot
     [(CFKey.trustSettingsResult, CFValue.number true kSecTrustSettingsResultTrustRoot),
      (CFKey.otherKey 0, CFValue.nonNumber)] (by decide) [] []⟩

/-- C3: the first applicable record wins: when the head record is a well-formed
single-key dictionary whose reserved key yields the outcome value `v`, the scan
returns `v = result` whatever records follow — later records are never
considered. -/
theorem first_applicable_record_wins (result v : Int) (o : CFSettingsObj)
    (rest : List CFSettingsObj) (h : recordDecision o = some v) :
    scanTrustSettings result (o :: rest) = decide (v = result) := by
  rw [scanTrustSettings_cons, h]

theorem first_applicable_record_wins_witness :
    recordDecision denyRecord = some kSecTrustSettingsResultDeny ∧
    scanTrustSettings kSecTrustSettingsResultTrustRoot [denyRecord, trustRootRecord] = false ∧
    CheckTrustMatch denyThenTrustStore 0 SecTrustSettingsDomain.user
      kSecTrustSettingsResultTrustRoot = (false, noErr) := by
  refine ⟨by decide, ?_, by decide⟩
  rw [first_applicable_record_wins kSecTrustSettingsResultTrustRoot
    kSecTrustSettingsResultDeny denyRecord [trustRootRecord] (by decide)]
  decide

/-- C10: when the settings copy reports success but hands back a null (absent)
settings array rather than a present-but-empty one, the evaluator returns no
match with success status for every desired outcome, TrustRoot included. -/
theorem evaluate_null_settings_no_match (store : TrustStore) (c : SecCertificateRef)
    (d : SecTrustSettingsDomain) (result : Int)
    (h : store.copyTrustSettings c d = (noErr, none)) :
    CheckTrustMatch store c d result = (false, noErr) := by
  simp [CheckTrustMatch, checkTrustMatchOn, h]

theorem evaluate_null_settings_no_match_witness :
    CheckTrustMatch nullSettingsStore 0 SecTrustSettingsDomain.admin
      kSecTrustSettingsResultTrustRoot = (false, noErr) ∧
    checkTrustMatchOn (noErr, some []) kSecTrustSettingsResultTrustRoot = (true, noErr) :=
  ⟨evaluate_null_settings_no_match nullSettingsStore 0 SecTrustSettingsDomain.admin
     kSecTrustSettingsResultTrustRoot rfl, by decide⟩

theorem enumerateTrustBody_ok (store : TrustStore) (d : SecTrustSettingsDomain)
    (result : Int) (arr : List SecCertificateRef)
    (ha : (store.copyCertificates d).1 = noErr)
    (hb : itemsAllOk store d result (store.copyCertificates d).2 = true) :
    enumerateTrustBody store d result arr =
      (1, optOfList (arr ++ domainMatches store d result), noErr) := by
  have hl := enumTrustLoop_allOk store d result (store.copyCertificates d).2 arr hb
  simp [enumerateTrustBody, ha, hl, finalizeEnum_ok, domainMatches]

theorem enumTrustLoop_break (store : TrustStore) (domain : SecTrustSettingsDomain)
    (result : Int) (pre post : List StoreItem) (c : SecCertificateRef) (e : OSStatus)
    (acc : List SecCertificateRef)
    (hpre : itemsAllOk store domain result pre = true)
    (hc : (CheckTrustMatch store c domain result).2 = e) (he : e ≠ noErr) :
    enumTrustLoop store domain result (pre ++ StoreItem.certItem c :: post) acc =
      (acc ++ collectMatches store domain result pre, e) := by
  induction pre generalizing acc with
  | nil => simp [enumTrustLoop, collectMatches, hc, he]
  | cons item rest ih =>
      cases item with
      | nonCertItem =>
          simp only [itemsAllOk] at hpre
          simp [enumTrustLoop, collectMatches, ih _ hpre]
      | certItem a =>
          simp only [itemsAllOk, Bool.and_eq_true, decide_eq_true_eq] at hpre
          by_cases hm : (CheckTrustMatch store a domain result).1
          all_goals simp [enumTrustLoop, collectMatches, hpre.1, hm, ih _ hpre.2]

theorem finalizeEnum_normalized (step : List SecCertificateRef × OSStatus) :
    (finalizeEnum step).2.1 = none ∨
      ((finalizeEnum step).1 = 1 ∧ (finalizeEnum step).2.1 = some step.1 ∧
        step.1.length ≠ 0) := by
  obtain ⟨l, s⟩ := step
  by_cases hs : s = noErr
  · subst hs
    rw [finalizeEnum_ok]
    by_cases hl : l.length = 0
    · exact Or.inl (by simp [optOfList, hl])
    · exact Or.inr (by simp [optOfList, hl])
  · rw [finalizeEnum_err l s hs]
    exact Or.inl rfl

theorem outputNormalized_finalize (step : List SecCertificateRef × OSStatus) :
    outputNormalized ((finalizeEnum step).1,
      some (finalizeEnum step).2.1, some (finalizeEnum step).2.2) = true := by
  rcases finalizeEnum_normalized step with h | ⟨h1, h2, h3⟩
  · simp [outputNormalized, h]
  · rw [h1, h2]
    simp [outputNormalized, h3]

theorem outputNormalized_enumerateTrust (store : TrustStore) (allocOk : Bool)
    (d : SecTrustSettingsDomain) (r : Int) (ci : Option (List SecCertificateRef)) :
    outputNormalized (EnumerateTrust store allocOk d r (some ci) true) = true := by
  cases ci with
  | some arr =>
      simp only [EnumerateTrust, enumerateTrustCore, enumerateTrustBody]
      exact outputNormalized_finalize _
  | none =>
      cases allocOk with
      | true =>
          simp only [EnumerateTrust, enumerateTrustCore, enumerateTrustBody]
          exact outputNormalized_finalize _
      | false => rfl

theorem enumerateTrust_reset_normalized (store : TrustStore) (allocOk : Bool)
    (d : SecTrustSettingsDomain) (r : Int)
    (pc : Option (Option (List SecCertificateRef))) (ps : Bool) :
    outputNormalized (EnumerateTrust store allocOk d r
      (pc.map fun _ => (none : Option (List SecCertificateRef))) ps) = true := by
  cases pc with
  | none => cases ps <;> rfl
  | some x =>
      cases ps with
      | false => rfl
      | true => exact outputNormalized_enumerateTrust store allocOk d r none

theorem enumerateTrust_invalid (s : TrustStore) (ak : Bool) (d : SecTrustSettingsDomain)
    (r : Int) (pc : Option (Option (List SecCertificateRef))) (ps : Bool)
    (h : pc = none ∨ ps = false) :
    EnumerateTrust s ak d r pc ps = (-1, pc, if ps then some noErr else none) := by
  rcases h with h | h
  · subst h; cases ps <;> rfl
  · subst h; cases pc <;> rfl

theorem chain_normalized (store : TrustStore) (allocOk : Bool) (r : Int)
    (pc : Option (Option (List SecCertificateRef))) (ps : Bool) :
    outputNormalized
      (if (EnumerateTrust store allocOk SecTrustSettingsDomain.admin r
            (pc.map fun _ => (none : Option (List SecCertificateRef))) ps).1 = 1 then
        EnumerateTrust store allocOk SecTrustSettingsDomain.system r
          (EnumerateTrust store allocOk SecTrustSettingsDomain.admin r
            (pc.map fun _ => (none : Option (List SecCertificateRef))) ps).2.1 ps
      else
        EnumerateTrust store allocOk SecTrustSettingsDomain.admin r
          (pc.map fun _ => (none : Option (List SecCertificateRef))) ps) = true := by
  by_cases h : (EnumerateTrust store allocOk SecTrustSettingsDomain.admin r
      (pc.map fun _ => (none : Option (List SecCertificateRef))) ps).1 = 1
  · rw [if_pos h]
    cases ps with
    | false =>
        rw [enumerateTrust_invalid _ _ _ _ _ _ (Or.inr rfl)] at h
        simp at h
    | true =>
        cases pc with
        | none =>
            simp only [Option.map_none'] at h
            rw [enumerateTrust_invalid _ _ _ _ _ _ (Or.inl rfl)] at h
            simp at h
        | some x =>
            have h21 : (EnumerateTrust store allocOk SecTrustSettingsDomain.admin r
                ((some x).map fun _ => (none : Option (List SecCertificateRef))) true).2.1 =
                some (enumerateTrustCore store allocOk SecTrustSettingsDomain.admin r
                  none).2.1 := rfl
            rw [h21]
            exact outputNormalized_enumerateTrust store allocOk SecTrustSettingsDomain.system r _
  · rw [if_neg h]
    exact enumerateTrust_reset_normalized store allocOk SecTrustSettingsDomain.admin r pc ps

theorem machine_fail_generic (store : TrustStore) (allocOk : Bool) (r : Int)
    (l : List SecCertificateRef) (e : OSStatus)
    (h1 : EnumerateTrust store allocOk SecTrustSettingsDomain.admin r (some none) true =
      (1, some (some l), some noErr))
    (h2 : (store.copyCertificates SecTrustSettingsDomain.system).1 = e)
    (h3 : e ≠ noErr) (h4 : e ≠ errSecNoTrustSettings) :
    (if (EnumerateTrust store allocOk SecTrustSettingsDomain.admin r (some none) true).1 = 1 then
      EnumerateTrust store allocOk SecTrustSettingsDomain.system r
        (EnumerateTrust store allocOk SecTrustSettingsDomain.admin r (some none) true).2.1 true
    else
      EnumerateTrust store allocOk SecTrustSettingsDomain.admin r (some none) true) =
      (0, some none, some e) := by
  have hfin := finalizeEnum_err l e h3
  rw [h1]
  simp [EnumerateTrust, enumerateTrustCore, enumerateTrustBody, h2, h3, h4, hfin]

/-- C4: for both machine-scope operations, if the Admin-domain enumeration
succeeds with matches and the System-domain certificate copy then fails with a
store error, the operation reports overall failure with a null output
collection — the Admin matches already found are discarded, never returned. -/
theorem machine_chain_fail_fast (store : TrustStore) (allocOk : Bool)
    (lR lD : List SecCertificateRef) (e : OSStatus)
    (pv pw : Option (List SecCertificateRef))
    (h1 : EnumerateTrust store allocOk SecTrustSettingsDomain.admin
      kSecTrustSettingsResultTrustRoot (some none) true = (1, some (some lR), some noErr))
    (h1d : EnumerateTrust store allocOk SecTrustSettingsDomain.admin
      kSecTrustSettingsResultDeny (some none) true = (1, some (some lD), some noErr))
    (h2 : (store.copyCertificates SecTrustSettingsDomain.system).1 = e)
    (h3 : e ≠ noErr) (h4 : e ≠ errSecNoTrustSettings) :
    AppleCryptoNative_StoreEnumerateMachineRoot store allocOk (some pv) true =
      (0, some none, some e) ∧
    AppleCryptoNative_StoreEnumerateMachineDisallowed store allocOk (some pw) true =
      (0, some none, some e) := by
  constructor
  · simp only [AppleCryptoNative_StoreEnumerateMachineRoot, Option.map_some']
    exact machine_fail_generic store allocOk kSecTrustSettingsResultTrustRoot lR e h1 h2 h3 h4
  · simp only [AppleCryptoNative_StoreEnumerateMachineDisallowed, Option.map_some']
    exact machine_fail_generic store allocOk kSecTrustSettingsResultDeny lD e h1d h2 h3 h4

theorem machine_chain_fail_fast_witness :
    AppleCryptoNative_StoreEnumerateMachineRoot failFastStore true (some none) true =
      (0, some none, some (-25293)) ∧
    AppleCryptoNative_StoreEnumerateMachineDisallowed failFastStore true (some none) true =
      (0, some none, some (-25293)) :=
  machine_chain_fail_fast failFastStore true [1] [2] (-25293) none none
    (by decide) (by decide) rfl (by decide) (by decide)

/-- C5: for every public operation the observable output is normalized: a
present output collection occurs only on a call that returned 1 and is never
empty, so failure and an empty accumulator both surface as an absent (null)
collection, distinguishable only through the return/status values. -/
theorem public_output_normalized (store : TrustStore) (allocOk : Bool)
    (pCerts : Option (Option (List SecCertificateRef))) (pStat : Bool) :
    outputNormalized (AppleCryptoNative_StoreEnumerateUserRoot store allocOk pCerts pStat) = true ∧
    outputNormalized (AppleCryptoNative_StoreEnumerateMachineRoot store allocOk pCerts pStat) = true ∧
    outputNormalized (AppleCryptoNative_StoreEnumerateUserDisallowed store allocOk pCerts pStat) = true ∧
    outputNormalized (AppleCryptoNative_StoreEnumerateMachineDisallowed store allocOk pCerts pStat) = true := by
  refine ⟨?_, ?_, ?_, ?_⟩
  · exact enumerateTrust_reset_normalized store allocOk SecTrustSettingsDomain.user
      kSecTrustSettingsResultTrustRoot pCerts pStat
  · exact chain_normalized store allocOk kSecTrustSettingsResultTrustRoot pCerts pStat
  · exact enumerateTrust_reset_normalized store allocOk SecTrustSettingsDomain.user
      kSecTrustSettingsResultDeny pCerts pStat
  · exact chain_normalized store allocOk kSecTrustSettingsResultDeny pCerts pStat

theorem machine_chain_generic (store : TrustStore) (r : Int)
    (h1 : domainOk store SecTrustSettingsDomain.admin r = true)
    (h2 : domainOk store SecTrustSettingsDomain.system r = true) :
    (if (EnumerateTrust store true SecTrustSettingsDomain.admin r (some none) true).1 = 1 then
      EnumerateTrust store true SecTrustSettingsDomain.system r
        (EnumerateTrust store true SecTrustSettingsDomain.admin r (some none) true).2.1 true
    else
      EnumerateTrust store true SecTrustSettingsDomain.admin r (some none) true) =
      (1, some (optOfList (domainMatches store SecTrustSettingsDomain.admin r ++
        domainMatches store SecTrustSettingsDomain.system r)), some noErr) := by
  rw [domainOk, Bool.and_eq_true, decide_eq_true_eq] at h1 h2
  obtain ⟨h1a, h1b⟩ := h1
  obtain ⟨h2a, h2b⟩ := h2
  have first : EnumerateTrust store true SecTrustSettingsDomain.admin r (some none) true =
      (1, some (optOfList (domainMatches store SecTrustSettingsDomain.admin r)),
        some noErr) := by
    have hbody := enumerateTrustBody_ok store SecTrustSettingsDomain.admin r [] h1a h1b
    simp [EnumerateTrust, enumerateTrustCore, hbody]
  rw [first]
  by_cases hlen : (domainMatches store SecTrustSettingsDomain.admin r).length = 0
  · have hnil : domainMatches store SecTrustSettingsDomain.admin r = [] :=
      List.length_eq_zero.mp hlen
    have hbody2 := enumerateTrustBody_ok store SecTrustSettingsDomain.system r [] h2a h2b
    simp [EnumerateTrust, enumerateTrustCore, hbody2, hnil, optOfList_nil]
  · have ho : optOfList (domainMatches store SecTrustSettingsDomain.admin r) =
        some (domainMatches store SecTrustSettingsDomain.admin r) := by
      simp [optOfList, hlen]
    have hbody2 := enumerateTrustBody_ok store SecTrustSettingsDomain.system r
      (domainMatches store SecTrustSettingsDomain.admin r) h2a h2b
    simp [ho, EnumerateTrust, enumerateTrustCore, hbody2]

/-- C6: for both machine-scope operations, when both domains enumerate without
error the Admin domain is enumerated first and the result collection lists all
Admin-domain matches in store order followed by all System-domain matches in
store order (subject only to the empty-collection release), with no reordering
and no deduplication. -/
theorem machine_chain_ordered_append (store : TrustStore)
    (pv pw : Option (List SecCertificateRef))
    (h1 : domainOk store SecTrustSettingsDomain.admin kSecTrustSettingsResultTrustRoot = true)
    (h2 : domainOk store SecTrustSettingsDomain.system kSecTrustSettingsResultTrustRoot = true)
    (h1d : domainOk store SecTrustSettingsDomain.admin kSecTrustSettingsResultDeny = true)
    (h2d : domainOk store SecTrustSettingsDomain.system kSecTrustSettingsResultDeny = true) :
    AppleCryptoNative_StoreEnumerateMachineRoot store true (some pv) true =
      (1, some (optOfList
        (domainMatches store SecTrustSettingsDomain.admin kSecTrustSettingsResultTrustRoot ++
         domainMatches store SecTrustSettingsDomain.system kSecTrustSettingsResultTrustRoot)),
       some noErr) ∧
    AppleCryptoNative_StoreEnumerateMachineDisallowed store true (some pw) true =
      (1, some (optOfList
        (domainMatches store SecTrustSettingsDomain.admin kSecTrustSettingsResultDeny ++
         domainMatches store SecTrustSettingsDomain.system kSecTrustSettingsResultDeny)),
       some noErr) := by
  constructor
  · simp only [AppleCryptoNative_StoreEnumerateMachineRoot, Option.map_some']
    exact machine_chain_generic store kSecTrustSettingsResultTrustRoot h1 h2
  · simp only [AppleCryptoNative_StoreEnumerateMachineDisallowed, Option.map_some']
    exact machine_chain_generic store kSecTrustSettingsResultDeny h1d h2d

theorem machine_chain_ordered_append_witness :
    AppleCryptoNative_StoreEnumerateMachineRoot orderedChainStore true (some none) true =
      (1, some (some [1, 2, 3]), some noErr) ∧
    AppleCryptoNative_StoreEnumerateMachineDisallowed orderedChainStore true (some none) true =
      (1, some none, some noErr) := by
  have h := machine_chain_ordered_append orderedChainStore none none
    (by decide) (by decide) (by decide) (by decide)
  exact ⟨by rw [h.1]; decide, by rw [h.2]; decide⟩

/-- C7: when the store reports that no trust settings exist in a domain, the
domain enumeration is normalized to success — return 1, status `noErr`, and the
accumulator unchanged — and its result is indistinguishable from enumerating a
domain that successfully contributes nothing. -/
theorem no_trust_settings_normalizes_to_success (store : TrustStore)
    (d : SecTrustSettingsDomain) (result : Int) (ci : Option (List SecCertificateRef))
    (h : (store.copyCertificates d).1 = errSecNoTrustSettings) :
    EnumerateTrust store true d result (some ci) true =
      (1, some (optOfList (ci.getD [])), some noErr) ∧
    EnumerateTrust store true d result (some ci) true =
      EnumerateTrust
        { store with copyCertificates := fun x =>
            if x = d then (noErr, []) else store.copyCertificates x }
        true d result (some ci) true := by
  have hne : errSecNoTrustSettings ≠ noErr := by decide
  have lhs : EnumerateTrust store true d result (some ci) true =
      (1, some (optOfList (ci.getD [])), some noErr) := by
    cases ci <;>
      simp [EnumerateTrust, enumerateTrustCore, enumerateTrustBody, h, hne,
        finalizeEnum_ok, Option.getD]
  refine ⟨lhs, ?_⟩
  rw [lhs]
  cases ci <;>
    simp [EnumerateTrust, enumerateTrustCore, enumerateTrustBody, enumTrustLoop,
      finalizeEnum_ok, Option.getD]

theorem no_trust_settings_normalizes_to_success_witness :
    EnumerateTrust noTrustSettingsStore true SecTrustSettingsDomain.user
      kSecTrustSettingsResultTrustRoot (some (some [7])) true =
      (1, some (some [7]), some noErr) := by
  rw [(no_trust_settings_normalizes_to_success noTrustSettingsStore
    SecTrustSettingsDomain.user kSecTrustSettingsResultTrustRoot (some [7]) rfl).1]
  decide

/-- C8: a store error while evaluating one certificate aborts the whole domain
enumeration at once: the result does not depend on the items after the failing
certificate, nothing found after it is appended, and the store's native error
code is surfaced verbatim as the status with a failure return. -/
theorem per_cert_error_aborts (store : TrustStore) (domain : SecTrustSettingsDomain)
    (result : Int) (ci : List SecCertificateRef) (pre post : List StoreItem)
    (c : SecCertificateRef) (e : OSStatus)
    (h0 : (store.copyCertificates domain).1 = noErr)
    (h1 : (store.copyCertificates domain).2 = pre ++ StoreItem.certItem c :: post)
    (h2 : itemsAllOk store domain result pre = true)
    (h3 : (CheckTrustMatch store c domain result).2 = e) (h4 : e ≠ noErr) :
    EnumerateTrust store true domain result (some (some ci)) true =
      (0, some none, some e) := by
  have hb := enumTrustLoop_break store domain result pre post c e ci h2 h3 h4
  have hfin := finalizeEnum_err (ci ++ collectMatches store domain result pre) e h4
  simp [EnumerateTrust, enumerateTrustCore, enumerateTrustBody, h0, h1, hb, hfin]

theorem per_cert_error_aborts_witness :
    EnumerateTrust perCertErrorStore true SecTrustSettingsDomain.user
      kSecTrustSettingsResultTrustRoot (some (some [])) true =
      (0, some none, some (-25300)) :=
  per_cert_error_aborts perCertErrorStore SecTrustSettingsDomain.user
    kSecTrustSettingsResultTrustRoot [] [StoreItem.certItem 1]
    [StoreItem.certItem 3] 2 (-25300) rfl rfl (by decide) (by decide) (by decide)

/-- C9: for every public operation, when a required output pointer is absent
the call returns the invalid-argument indicator -1, and its whole observable
result does not depend on the store (or on allocation) at all — no store access
takes place. -/
theorem invalid_args_short_circuit (store storeB : TrustStore) (aok bok : Bool)
    (pCerts : Option (Option (List SecCertificateRef))) (pStat : Bool)
    (h : pCerts = none ∨ pStat = false) :
    ((AppleCryptoNative_StoreEnumerateUserRoot store aok pCerts pStat).1 = -1 ∧
      AppleCryptoNative_StoreEnumerateUserRoot store aok pCerts pStat =
        AppleCryptoNative_StoreEnumerateUserRoot storeB bok pCerts pStat) ∧
    ((AppleCryptoNative_StoreEnumerateMachineRoot store aok pCerts pStat).1 = -1 ∧
      AppleCryptoNative_StoreEnumerateMachineRoot store aok pCerts pStat =
        AppleCryptoNative_StoreEnumerateMachineRoot storeB bok pCerts pStat) ∧
    ((AppleCryptoNative_StoreEnumerateUserDisallowed store aok pCerts pStat).1 = -1 ∧
      AppleCryptoNative_StoreEnumerateUserDisallowed store aok pCerts pStat =
        AppleCryptoNative_StoreEnumerateUserDisallowed storeB bok pCerts pStat) ∧
    ((AppleCryptoNative_StoreEnumerateMachineDisallowed store aok pCerts pStat).1 = -1 ∧
      AppleCryptoNative_StoreEnumerateMachineDisallowed store aok pCerts pStat =
        AppleCryptoNative_StoreEnumerateMachineDisallowed storeB bok pCerts pStat) := by
  have hmap : pCerts.map (fun _ => (none : Option (List SecCertificateRef))) = none ∨
      pStat = false := by
    rcases h with h | h
    · exact Or.inl (by simp [h])
    · exact Or.inr h
  refine ⟨⟨?_, ?_⟩, ⟨?_, ?_⟩, ⟨?_, ?_⟩, ⟨?_, ?_⟩⟩ <;>
    simp [AppleCryptoNative_StoreEnumerateUserRoot,
      AppleCryptoNative_StoreEnumerateMachineRoot,
      AppleCryptoNative_StoreEnumerateUserDisallowed,
      AppleCryptoNative_StoreEnumerateMachineDisallowed,
      enumerateTrust_invalid _ _ _ _ _ _ hmap]

theorem invalid_args_short_circuit_witness :
    ((none : Option (Option (List SecCertificateRef))) = none ∨ true = false) ∧
    (AppleCryptoNative_StoreEnumerateUserRoot emptySettingsStore true none true).1 = -1 ∧
    AppleCryptoNative_StoreEnumerateMachineRoot nullSettingsStore false none true =
      AppleCryptoNative_StoreEnumerateMachineRoot emptySettingsStore true none true :=
  ⟨Or.inl rfl,
   (invalid_args_short_circuit emptySettingsStore nullSettingsStore true false none true
      (Or.inl rfl)).1.1,
   (invalid_args_short_circuit nullSettingsStore emptySettingsStore false true none true
      (Or.inl rfl)).2.1.2⟩
